import Mathlib

/-!
Shallow embedding of the ray tracer in `raytracer.go`.

Float64 values are modelled as exact reals; the `math.Inf(1)` sentinel used
for parametric ray distances is modelled with `EReal` (reals extended with
infinities).  Each definition mirrors one Go function of the source,
keeping its name.
-/

noncomputable section

namespace Raytracer

structure Color where
  r : ℝ
  g : ℝ
  b : ℝ

structure Vector where
  x : ℝ
  y : ℝ
  z : ℝ

structure Sphere where
  center : Vector
  radius : ℝ
  color : Color
  specular : ℝ
  reflective : ℝ

structure Light where
  kind : String
  intensity : ℝ
  position : Vector
  direction : Vector

/-- Go `MakeVector`. -/
def MakeVector (x y z : ℝ) : Vector := ⟨x, y, z⟩

/-- Go `MakeColor`: each channel clamped to [0, 1] via max/min. -/
def MakeColor (r g b : ℝ) : Color :=
  ⟨max (min r 1) 0, max (min g 1) 0, max (min b 1) 0⟩

/-- Go `WeightColor`. -/
def WeightColor (c : Color) (w : ℝ) : Color :=
  MakeColor (c.r * w) (c.g * w) (c.b * w)

/-- Go `AddColors`. -/
def AddColors (c1 c2 : Color) : Color :=
  MakeColor (c1.r + c2.r) (c1.g + c2.g) (c1.b + c2.b)

/-- Go `MakeSphere`. -/
def MakeSphere (center : Vector) (radius : ℝ) (color : Color)
    (specular reflective : ℝ) : Sphere :=
  ⟨center, radius, color, specular, reflective⟩

/-- Go `MakeLight`. -/
def MakeLight (kind : String) (intensity : ℝ) (position direction : Vector) : Light :=
  ⟨kind, intensity, position, direction⟩

/-- Go `dot`. -/
def dot (a b : Vector) : ℝ := a.x * b.x + a.y * b.y + a.z * b.z

/-- Go `sub`. -/
def sub (a b : Vector) : Vector := MakeVector (a.x - b.x) (a.y - b.y) (a.z - b.z)

/-- Go `add`. -/
def add (a b : Vector) : Vector := MakeVector (a.x + b.x) (a.y + b.y) (a.z + b.z)

/-- Go `mul` (component-wise). -/
def mul (a b : Vector) : Vector := MakeVector (a.x * b.x) (a.y * b.y) (a.z * b.z)

/-- Go `neg`. -/
def neg (a : Vector) : Vector := MakeVector (-a.x) (-a.y) (-a.z)

/-- Go `norm`. -/
def norm (a : Vector) : ℝ := Real.sqrt (dot a a)

/-- Go `normalize`: divides each component by the (possibly zero) length.
There is no guard: the division is performed unconditionally. -/
def normalize (a : Vector) : Vector :=
  MakeVector (a.x / norm a) (a.y / norm a) (a.z / norm a)

/-- Go constant `Vw`. -/
def Vw : ℝ := 1

/-- Go constant `Vh`. -/
def Vh : ℝ := 1

/-- Go constant `Cw` (canvas width in pixels). -/
def Cw : ℤ := 1024

/-- Go constant `Ch` (canvas height in pixels). -/
def Ch : ℤ := 1024

/-- Go constant `d` (focal distance). -/
def d : ℝ := 1

/-- Go `ChangeCoord2D`: converts centered coordinates to raster indices. -/
def ChangeCoord2D (cx cy : ℤ) : ℤ × ℤ := (Cw / 2 + cx, Ch / 2 - cy)

/-- Go `CanvasToViewPort`. -/
def CanvasToViewPort (x y : ℤ) : Vector :=
  MakeVector ((x : ℝ) * Vw / (Cw : ℝ)) ((y : ℝ) * Vh / (Ch : ℝ)) d

/-- Go `IntersectRaySphere`: solves the ray/sphere quadratic; a negative
discriminant yields the `(+inf, +inf)` sentinel pair. -/
def IntersectRaySphere (origin direction : Vector) (sphere : Sphere) :
    EReal × EReal :=
  let r := sphere.radius
  let CO := sub origin sphere.center
  let a := dot direction direction
  let b := 2 * dot CO direction
  let c := dot CO CO - r * r
  let discrim := b * b - 4 * a * c
  if discrim < 0 then (⊤, ⊤)
  else ((((-b + Real.sqrt discrim) / (2 * a) : ℝ) : EReal),
        (((-b - Real.sqrt discrim) / (2 * a) : ℝ) : EReal))

/-- One `if` of the loop body of Go `ClosestIntersection`: accept candidate
root `t` when `t < best_t && t_min <= t && t <= t_max`. -/
def closestUpd (t_min t_max : EReal) (sphere : Sphere) (t : EReal)
    (acc : Option Sphere × EReal) : Option Sphere × EReal :=
  if t < acc.2 ∧ t_min ≤ t ∧ t ≤ t_max then (some sphere, t) else acc

/-- One iteration of the loop of Go `ClosestIntersection`: test root `t1`,
then root `t2`. -/
def closestStep (origin direction : Vector) (t_min t_max : EReal)
    (acc : Option Sphere × EReal) (sphere : Sphere) : Option Sphere × EReal :=
  closestUpd t_min t_max sphere (IntersectRaySphere origin direction sphere).2
    (closestUpd t_min t_max sphere (IntersectRaySphere origin direction sphere).1 acc)

/-- Go `ClosestIntersection`: linear scan, running best initialized to
`(nil, t_max)`. -/
def ClosestIntersection (spheres : List Sphere) (origin direction : Vector)
    (t_min t_max : EReal) : Option Sphere × EReal :=
  spheres.foldl (closestStep origin direction t_min t_max) (none, t_max)

/-- Go `ReflectRay`. -/
def ReflectRay (ray normal : Vector) : Vector :=
  let k := 2 * dot normal ray
  sub (mul (MakeVector k k k) normal) ray

/-- The net intensity one light adds in one iteration of the loop of Go
`Lighting`: ambient lights add their intensity unconditionally; point and
directional lights are shadow-tested via `ClosestIntersection` (with
`t_min = 0.001` and `t_max = 1` for point, `t_max = +inf` for directional)
and, when occluded, add nothing; otherwise they add the diffuse term and,
unless `specular == -1`, the specular term. -/
def lightContribution (spheres : List Sphere) (point normal reflection : Vector)
    (specular : ℝ) (light : Light) : ℝ :=
  if light.kind = "ambient" then light.intensity
  else
    let L := if light.kind = "point" then sub light.position point else light.direction
    let t_max : EReal := if light.kind = "point" then ((1 : ℝ) : EReal) else ⊤
    match ClosestIntersection spheres point L ((0.001 : ℝ) : EReal) t_max with
    | (some _, _) => 0
    | (none, _) =>
      let N := normalize normal
      let Ln := normalize L
      let diffuse := light.intensity * max 0 (dot N Ln)
      if specular ≠ -1 then
        diffuse + light.intensity *
          Real.rpow (max 0 (dot (normalize (ReflectRay Ln N)) (normalize reflection))) specular
      else diffuse

/-- Go `Lighting`: accumulates intensity over the light list, starting at 0. -/
def Lighting (spheres : List Sphere) (lights : List Light)
    (point normal reflection : Vector) (specular : ℝ) : ℝ :=
  lights.foldl
    (fun intensity light =>
      intensity + lightContribution spheres point normal reflection specular light) 0

/-- The hit point `origin + t * direction` computed at line 177-178 of the
source (`t` replicated into a vector and multiplied component-wise). -/
def hitPoint (origin direction : Vector) (t : ℝ) : Vector :=
  add origin (mul (MakeVector t t t) direction)

/-- The outward normal at the hit point (line 179 of the source). -/
def hitNormal (origin direction : Vector) (s : Sphere) (t : ℝ) : Vector :=
  normalize (sub (hitPoint origin direction t) s.center)

/-- The local shading color of Go `TraceRay` (lines 176-181): the sphere's
base color weighted by the `Lighting` intensity. -/
def localColor (spheres : List Sphere) (lights : List Light)
    (origin direction : Vector) (s : Sphere) (t : ℝ) : Color :=
  WeightColor s.color
    (Lighting spheres lights (hitPoint origin direction t)
      (hitNormal origin direction s t) (neg direction) s.specular)

/-- Go `TraceRay`. -/
def TraceRay (spheres : List Sphere) (lights : List Light)
    (origin direction : Vector) (t_min t_max : EReal) (recursion_depth : ℤ) : Color :=
  match ClosestIntersection spheres origin direction t_min t_max with
  | (none, _) => MakeColor 0 0 0
  | (some best_sphere, best_t) =>
    let t := best_t.toReal
    let local_color := localColor spheres lights origin direction best_sphere t
    if h : recursion_depth ≤ 0 ∨ best_sphere.reflective ≤ 0 then local_color
    else
      AddColors
        (WeightColor local_color (1 - best_sphere.reflective))
        (WeightColor
          (TraceRay spheres lights (hitPoint origin direction t)
            (ReflectRay (neg direction) (hitNormal origin direction best_sphere t))
            ((0.001 : ℝ) : EReal) ⊤ (recursion_depth - 1))
          best_sphere.reflective)
termination_by recursion_depth.toNat
decreasing_by
  push_neg at h
  omega

/-! ### Concrete demo inputs used by witnesses -/

/-- A demonstration ray origin: the world origin. -/
def demoO : Vector := MakeVector 0 0 0

/-- A demonstration ray direction: straight along the z axis. -/
def demoD : Vector := MakeVector 0 0 1

/-- A demonstration sphere of radius 1 centered at (0,0,3), with
parametrized reflectivity. -/
def demoSphere (rf : ℝ) : Sphere :=
  MakeSphere (MakeVector 0 0 3) 1 (MakeColor 1 0 0) 500 rf

lemma sqrt_four : Real.sqrt 4 = 2 := by
  rw [show (4 : ℝ) = 2 ^ 2 by norm_num]
  exact Real.sqrt_sq (by norm_num)

/-- On the demo inputs the quadratic has a = 1, b = -6, c = 8, so the
discriminant is 4 and the roots are t1 = 4, t2 = 2. -/
lemma demo_intersect (rf : ℝ) :
    IntersectRaySphere demoO demoD (demoSphere rf) =
      (((4 : ℝ) : EReal), ((2 : ℝ) : EReal)) := by
  simp only [IntersectRaySphere, demoSphere, demoO, demoD, MakeSphere, MakeVector,
    sub, dot]
  norm_num [sqrt_four]

/-- On the demo inputs `ClosestIntersection` selects the demo sphere at
parametric distance 2 (the smaller root in range). -/
lemma demo_CI (rf : ℝ) :
    ClosestIntersection [demoSphere rf] demoO demoD ((1 : ℝ) : EReal) ⊤ =
      (some (demoSphere rf), ((2 : ℝ) : EReal)) := by
  unfold ClosestIntersection
  rw [List.foldl_cons, List.foldl_nil]
  unfold closestStep
  rw [demo_intersect]
  show closestUpd _ _ _ ((2 : ℝ) : EReal)
      (closestUpd _ _ _ ((4 : ℝ) : EReal) (none, ⊤)) = _
  have h1 : closestUpd ((1 : ℝ) : EReal) ⊤ (demoSphere rf) ((4 : ℝ) : EReal)
      (none, ⊤) = (some (demoSphere rf), ((4 : ℝ) : EReal)) := by
    unfold closestUpd
    exact if_pos ⟨EReal.coe_lt_top 4, EReal.coe_le_coe_iff.mpr (by norm_num), le_top⟩
  rw [h1]
  unfold closestUpd
  exact if_pos ⟨EReal.coe_lt_coe_iff.mpr (by norm_num),
    EReal.coe_le_coe_iff.mpr (by norm_num), le_top⟩

/-- `c` is one of the two quadratic roots `IntersectRaySphere` reports for
sphere `s` on the given ray. -/
def isRootOf (origin direction : Vector) (c : EReal) (s : Sphere) : Prop :=
  c = (IntersectRaySphere origin direction s).1 ∨
  c = (IntersectRaySphere origin direction s).2

/-- Invariant of the scan loop of `ClosestIntersection`: starting from the
running best `(bs, bt)`, after processing the sphere list `l` the result
`res` (1) never increases the best distance, (2) is a lower bound on every
candidate root of `l` that passes the loop's acceptance test against the
initial best, and (3) either nothing was accepted and `res = (bs, bt)` with
no acceptable candidate in `l`, or `res` holds the first sphere of `l`
attaining the least acceptable candidate root. -/
def LoopInv (origin direction : Vector) (t_min t_max : EReal)
    (bs : Option Sphere) (bt : EReal) (l : List Sphere)
    (res : Option Sphere × EReal) : Prop :=
  res.2 ≤ bt ∧
  (∀ s ∈ l, ∀ c : EReal, isRootOf origin direction c s →
    t_min ≤ c → c ≤ t_max → c < bt → res.2 ≤ c) ∧
  ((res = (bs, bt) ∧
      ∀ s ∈ l, ∀ c : EReal, isRootOf origin direction c s →
        ¬(t_min ≤ c ∧ c ≤ t_max ∧ c < bt)) ∨
    (∃ l1 w l2, l = l1 ++ w :: l2 ∧ res.1 = some w ∧
      isRootOf origin direction res.2 w ∧
      t_min ≤ res.2 ∧ res.2 ≤ t_max ∧ res.2 < bt ∧
      ∀ u ∈ l1, ∀ c : EReal, isRootOf origin direction c u →
        t_min ≤ c → c ≤ t_max → c < bt → res.2 < c))

lemma LoopInv_extend (origin direction : Vector) (t_min t_max : EReal)
    (bs : Option Sphere) (bt : EReal) (s : Sphere)
    (bs1 : Option Sphere) (bt1 : EReal) (rest : List Sphere)
    (res : Option Sphere × EReal)
    (hinv : LoopInv origin direction t_min t_max bs1 bt1 rest res)
    (hstep :
      (bs1 = bs ∧ bt1 = bt ∧
        ∀ c : EReal, isRootOf origin direction c s →
          ¬(t_min ≤ c ∧ c ≤ t_max ∧ c < bt)) ∨
      (bs1 = some s ∧ isRootOf origin direction bt1 s ∧
        t_min ≤ bt1 ∧ bt1 ≤ t_max ∧ bt1 < bt ∧
        ∀ c : EReal, isRootOf origin direction c s →
          t_min ≤ c → c ≤ t_max → c < bt → bt1 ≤ c)) :
    LoopInv origin direction t_min t_max bs bt (s :: rest) res := by
  obtain ⟨h1, h2, h3⟩ := hinv
  rcases hstep with ⟨hbs1, hbt1, hhead⟩ | ⟨hbs1, hroot1, htmin1, htmax1, hlt1, hmin1⟩
  · subst hbs1; subst hbt1
    refine ⟨h1, ?_, ?_⟩
    · intro u hu c hroot hcmin hcmax hclt
      rcases List.mem_cons.mp hu with rfl | hu2
      · exact absurd ⟨hcmin, hcmax, hclt⟩ (hhead c hroot)
      · exact h2 u hu2 c hroot hcmin hcmax hclt
    · rcases h3 with ⟨hres, hnone⟩ | ⟨l1, w, l2, hsplit, hfst, hroot, ha, hb, hc, htie⟩
      · refine Or.inl ⟨hres, ?_⟩
        intro u hu c hroot
        rcases List.mem_cons.mp hu with rfl | hu2
        · exact hhead c hroot
        · exact hnone u hu2 c hroot
      · refine Or.inr ⟨s :: l1, w, l2, by rw [hsplit, List.cons_append], hfst, hroot, ha, hb, hc, ?_⟩
        intro u hu c hroot hcmin hcmax hclt
        rcases List.mem_cons.mp hu with rfl | hu2
        · exact absurd ⟨hcmin, hcmax, hclt⟩ (hhead c hroot)
        · exact htie u hu2 c hroot hcmin hcmax hclt
  · have h1' : res.2 ≤ bt := le_trans h1 (le_of_lt hlt1)
    refine ⟨h1', ?_, ?_⟩
    · intro u hu c hroot hcmin hcmax hclt
      rcases List.mem_cons.mp hu with rfl | hu2
      · exact le_trans h1 (hmin1 c hroot hcmin hcmax hclt)
      · rcases lt_or_le c bt1 with hcase | hcase
        · exact h2 u hu2 c hroot hcmin hcmax hcase
        · exact le_trans h1 hcase
    · rcases h3 with ⟨hres, _⟩ | ⟨l1, w, l2, hsplit, hfst, hroot, ha, hb, hc, htie⟩
      · refine Or.inr ⟨[], s, rest, rfl, ?_, ?_, ?_, ?_, ?_, ?_⟩
        · rw [hres]; exact hbs1
        · rw [hres]; exact hroot1
        · rw [hres]; exact htmin1
        · rw [hres]; exact htmax1
        · rw [hres]; exact hlt1
        · intro u hu; exact absurd hu (List.not_mem_nil u)
      · refine Or.inr ⟨s :: l1, w, l2, by rw [hsplit, List.cons_append], hfst, hroot,
          ha, hb, lt_trans hc hlt1, ?_⟩
        intro u hu c hroot2 hcmin hcmax hclt
        rcases List.mem_cons.mp hu with rfl | hu2
        · exact lt_of_lt_of_le hc (hmin1 c hroot2 hcmin hcmax hclt)
        · rcases lt_or_le c bt1 with hcase | hcase
          · exact htie u hu2 c hroot2 hcmin hcmax hcase
          · exact lt_of_lt_of_le hc hcase

lemma closest_foldl_inv (origin direction : Vector) (t_min t_max : EReal) :
    ∀ (l : List Sphere) (bs : Option Sphere) (bt : EReal),
      LoopInv origin direction t_min t_max bs bt l
        (l.foldl (closestStep origin direction t_min t_max) (bs, bt)) := by
  intro l
  induction l with
  | nil =>
    intro bs bt
    refine ⟨le_refl _, ?_, Or.inl ⟨rfl, ?_⟩⟩
    · intro u hu
      exact absurd hu (List.not_mem_nil u)
    · intro u hu
      exact absurd hu (List.not_mem_nil u)
  | cons s rest ih =>
    intro bs bt
    rw [List.foldl_cons]
    have hstep_eq : closestStep origin direction t_min t_max (bs, bt) s =
        closestUpd t_min t_max s (IntersectRaySphere origin direction s).2
          (closestUpd t_min t_max s (IntersectRaySphere origin direction s).1
            (bs, bt)) := rfl
    rw [hstep_eq]
    by_cases hc1 : (IntersectRaySphere origin direction s).1 < bt ∧
        t_min ≤ (IntersectRaySphere origin direction s).1 ∧
        (IntersectRaySphere origin direction s).1 ≤ t_max
    · have hu1 : closestUpd t_min t_max s (IntersectRaySphere origin direction s).1
          (bs, bt) = (some s, (IntersectRaySphere origin direction s).1) := by
        unfold closestUpd
        exact if_pos hc1
      rw [hu1]
      by_cases hc2 : (IntersectRaySphere origin direction s).2 <
          (IntersectRaySphere origin direction s).1 ∧
          t_min ≤ (IntersectRaySphere origin direction s).2 ∧
          (IntersectRaySphere origin direction s).2 ≤ t_max
      · have hu2 : closestUpd t_min t_max s (IntersectRaySphere origin direction s).2
            (some s, (IntersectRaySphere origin direction s).1) =
            (some s, (IntersectRaySphere origin direction s).2) := by
          unfold closestUpd
          exact if_pos hc2
        rw [hu2]
        refine LoopInv_extend origin direction t_min t_max bs bt s _ _ rest _
          (ih (some s) (IntersectRaySphere origin direction s).2) (Or.inr ?_)
        refine ⟨rfl, Or.inr rfl, hc2.2.1, hc2.2.2, lt_trans hc2.1 hc1.1, ?_⟩
        intro c hroot hcmin hcmax hclt
        rcases hroot with rfl | rfl
        · exact le_of_lt hc2.1
        · exact le_refl _
      · have hu2 : closestUpd t_min t_max s (IntersectRaySphere origin direction s).2
            (some s, (IntersectRaySphere origin direction s).1) =
            (some s, (IntersectRaySphere origin direction s).1) := by
          unfold closestUpd
          exact if_neg hc2
        rw [hu2]
        refine LoopInv_extend origin direction t_min t_max bs bt s _ _ rest _
          (ih (some s) (IntersectRaySphere origin direction s).1) (Or.inr ?_)
        refine ⟨rfl, Or.inl rfl, hc1.2.1, hc1.2.2, hc1.1, ?_⟩
        intro c hroot hcmin hcmax hclt
        rcases hroot with rfl | rfl
        · exact le_refl _
        · by_contra hcon
          exact hc2 ⟨lt_of_not_le hcon, hcmin, hcmax⟩
    · have hu1 : closestUpd t_min t_max s (IntersectRaySphere origin direction s).1
          (bs, bt) = (bs, bt) := by
        unfold closestUpd
        exact if_neg hc1
      rw [hu1]
      by_cases hc2 : (IntersectRaySphere origin direction s).2 < bt ∧
          t_min ≤ (IntersectRaySphere origin direction s).2 ∧
          (IntersectRaySphere origin direction s).2 ≤ t_max
      · have hu2 : closestUpd t_min t_max s (IntersectRaySphere origin direction s).2
            (bs, bt) = (some s, (IntersectRaySphere origin direction s).2) := by
          unfold closestUpd
          exact if_pos hc2
        rw [hu2]
        refine LoopInv_extend origin direction t_min t_max bs bt s _ _ rest _
          (ih (some s) (IntersectRaySphere origin direction s).2) (Or.inr ?_)
        refine ⟨rfl, Or.inr rfl, hc2.2.1, hc2.2.2, hc2.1, ?_⟩
        intro c hroot hcmin hcmax hclt
        rcases hroot with rfl | rfl
        · exact absurd ⟨hclt, hcmin, hcmax⟩ hc1
        · exact le_refl _
      · have hu2 : closestUpd t_min t_max s (IntersectRaySphere origin direction s).2
            (bs, bt) = (bs, bt) := by
          unfold closestUpd
          exact if_neg hc2
        rw [hu2]
        refine LoopInv_extend origin direction t_min t_max bs bt s _ _ rest _
          (ih bs bt) (Or.inl ?_)
        refine ⟨rfl, rfl, ?_⟩
        intro c hroot hcand
        rcases hroot with rfl | rfl
        · exact hc1 ⟨hcand.2.2, hcand.1, hcand.2.1⟩
        · exact hc2 ⟨hcand.2.2, hcand.1, hcand.2.1⟩

/-! ### Claim theorems -/

/-- C4: `IntersectRaySphere` solves `a t^2 + b t + c = 0` with
`a = dot(direction, direction)`, `b = 2 dot(origin - center, direction)`,
`c = dot(origin - center, origin - center) - radius^2`; a negative
discriminant yields `(+inf, +inf)`, otherwise the roots
`t1 = (-b + sqrt disc)/(2a)` and `t2 = (-b - sqrt disc)/(2a)` are returned
in that order, with `t2 <= t1`. -/
theorem intersectRaySphere_roots (origin direction : Vector) (s : Sphere)
    (a b c discrim : ℝ)
    (ha : a = dot direction direction)
    (hb : b = 2 * dot (sub origin s.center) direction)
    (hc : c = dot (sub origin s.center) (sub origin s.center) -
        s.radius * s.radius)
    (hdisc : discrim = b * b - 4 * a * c) :
    (discrim < 0 → IntersectRaySphere origin direction s = (⊤, ⊤)) ∧
    (0 ≤ discrim →
      IntersectRaySphere origin direction s =
        ((((-b + Real.sqrt discrim) / (2 * a) : ℝ) : EReal),
         (((-b - Real.sqrt discrim) / (2 * a) : ℝ) : EReal)) ∧
      (-b - Real.sqrt discrim) / (2 * a) ≤ (-b + Real.sqrt discrim) / (2 * a)) := by
  subst ha hb hc hdisc
  constructor
  · intro h
    simp only [IntersectRaySphere]
    rw [if_pos h]
  · intro h
    have hA : 0 ≤ dot direction direction := by
      simp only [dot]
      exact add_nonneg (add_nonneg (mul_self_nonneg _) (mul_self_nonneg _))
        (mul_self_nonneg _)
    have hs : 0 ≤ Real.sqrt
        (2 * dot (sub origin s.center) direction *
            (2 * dot (sub origin s.center) direction) -
          4 * dot direction direction *
            (dot (sub origin s.center) (sub origin s.center) -
              s.radius * s.radius)) := Real.sqrt_nonneg _
    constructor
    · simp only [IntersectRaySphere]
      rw [if_neg (not_lt.mpr h)]
    · rcases eq_or_lt_of_le hA with hA0 | hApos
      · rw [← hA0]
        norm_num
      · have h2 : (0 : ℝ) < 2 * dot direction direction := by linarith
        exact (div_le_div_iff_of_pos_right h2).mpr (by linarith)

/-- Witness for C4 at the demo inputs: a = 1, b = -6, c = 8, discriminant 4;
the roots are returned as `((6 + sqrt 4)/2, (6 - sqrt 4)/2)` with the second
at most the first. -/
theorem intersectRaySphere_roots_witness :
    ((1 : ℝ) = dot demoD demoD ∧
     (-6 : ℝ) = 2 * dot (sub demoO (demoSphere 0).center) demoD ∧
     (8 : ℝ) = dot (sub demoO (demoSphere 0).center) (sub demoO (demoSphere 0).center) -
        (demoSphere 0).radius * (demoSphere 0).radius ∧
     (4 : ℝ) = (-6 : ℝ) * (-6 : ℝ) - 4 * 1 * 8 ∧ (0 : ℝ) ≤ 4) ∧
    (IntersectRaySphere demoO demoD (demoSphere 0) =
        ((((-(-6 : ℝ) + Real.sqrt 4) / (2 * 1) : ℝ) : EReal),
         (((-(-6 : ℝ) - Real.sqrt 4) / (2 * 1) : ℝ) : EReal)) ∧
      (-(-6 : ℝ) - Real.sqrt 4) / (2 * 1) ≤ (-(-6 : ℝ) + Real.sqrt 4) / (2 * 1)) := by
  have h1 : (1 : ℝ) = dot demoD demoD := by
    norm_num [dot, demoD, MakeVector]
  have h2 : (-6 : ℝ) = 2 * dot (sub demoO (demoSphere 0).center) demoD := by
    norm_num [dot, sub, demoO, demoD, demoSphere, MakeSphere, MakeVector]
  have h3 : (8 : ℝ) = dot (sub demoO (demoSphere 0).center)
      (sub demoO (demoSphere 0).center) -
      (demoSphere 0).radius * (demoSphere 0).radius := by
    norm_num [dot, sub, demoO, demoD, demoSphere, MakeSphere, MakeVector]
  have h4 : (4 : ℝ) = (-6 : ℝ) * (-6 : ℝ) - 4 * 1 * 8 := by norm_num
  exact ⟨⟨h1, h2, h3, h4, by norm_num⟩,
    (intersectRaySphere_roots demoO demoD (demoSphere 0) 1 (-6) 8 4 h1 h2 h3 h4).2
      (by norm_num)⟩

/-- C7: every `Color` produced by `MakeColor`, `WeightColor` or `AddColors`
has each of its three channels clamped to the interval [0, 1]:
`MakeColor` clamps each channel independently, `WeightColor` scales then
reclamps through `MakeColor`, and `AddColors` sums then reclamps through
`MakeColor`. -/
theorem color_channels_clamped :
    (∀ r g b : ℝ,
      0 ≤ (MakeColor r g b).r ∧ (MakeColor r g b).r ≤ 1 ∧
      0 ≤ (MakeColor r g b).g ∧ (MakeColor r g b).g ≤ 1 ∧
      0 ≤ (MakeColor r g b).b ∧ (MakeColor r g b).b ≤ 1) ∧
    (∀ (c : Color) (w : ℝ),
      0 ≤ (WeightColor c w).r ∧ (WeightColor c w).r ≤ 1 ∧
      0 ≤ (WeightColor c w).g ∧ (WeightColor c w).g ≤ 1 ∧
      0 ≤ (WeightColor c w).b ∧ (WeightColor c w).b ≤ 1) ∧
    (∀ c1 c2 : Color,
      0 ≤ (AddColors c1 c2).r ∧ (AddColors c1 c2).r ≤ 1 ∧
      0 ≤ (AddColors c1 c2).g ∧ (AddColors c1 c2).g ≤ 1 ∧
      0 ≤ (AddColors c1 c2).b ∧ (AddColors c1 c2).b ≤ 1) := by
  have hclamp : ∀ x : ℝ, 0 ≤ max (min x 1) 0 ∧ max (min x 1) 0 ≤ 1 := fun x =>
    ⟨le_max_right _ _, max_le (min_le_right _ _) zero_le_one⟩
  refine ⟨fun r g b => ?_, fun c w => ?_, fun c1 c2 => ?_⟩ <;>
    exact ⟨(hclamp _).1, (hclamp _).2, (hclamp _).1, (hclamp _).2,
      (hclamp _).1, (hclamp _).2⟩

/-- C10: `ChangeCoord2D (x, y)` is exactly `(Cw/2 + x, Ch/2 - y)`; over the
driver's loop ranges the column index lies in [0, Cw-1] while the row index
lies in [1, Ch]: row 0 is never produced, and `y = -Ch/2` maps to row `Ch`,
one past the canvas's 0-based row range. -/
theorem changeCoord2D_row_out_of_range (x y : ℤ)
    (hx1 : -(Cw / 2) ≤ x) (hx2 : x < Cw / 2)
    (hy1 : -(Ch / 2) ≤ y) (hy2 : y < Ch / 2) :
    (ChangeCoord2D x y = (Cw / 2 + x, Ch / 2 - y)) ∧
    (0 ≤ (ChangeCoord2D x y).1 ∧ (ChangeCoord2D x y).1 ≤ Cw - 1) ∧
    (1 ≤ (ChangeCoord2D x y).2 ∧ (ChangeCoord2D x y).2 ≤ Ch) ∧
    (ChangeCoord2D x y).2 ≠ 0 ∧
    (y = -(Ch / 2) →
      (ChangeCoord2D x y).2 = Ch ∧ ¬(ChangeCoord2D x y).2 ≤ Ch - 1) := by
  simp only [ChangeCoord2D, Cw, Ch] at *
  refine ⟨trivial, ⟨?_, ?_⟩, ⟨?_, ?_⟩, ?_, fun hy => ⟨?_, ?_⟩⟩ <;> omega

/-- Witness for C10 at the concrete coordinate (-512, -512): the row index
is `Ch = 1024`, outside the 0-based row range [0, Ch-1]. -/
theorem changeCoord2D_row_out_of_range_witness :
    (-(Cw / 2) ≤ (-512 : ℤ) ∧ (-512 : ℤ) < Cw / 2 ∧ -(Ch / 2) ≤ (-512 : ℤ) ∧
      (-512 : ℤ) < Ch / 2) ∧
    (ChangeCoord2D (-512) (-512)).2 = Ch ∧
    ¬(ChangeCoord2D (-512) (-512)).2 ≤ Ch - 1 :=
  ⟨⟨by decide, by decide, by decide, by decide⟩,
    (changeCoord2D_row_out_of_range (-512) (-512) (by decide) (by decide)
        (by decide) (by decide)).2.2.2.2 (by decide)⟩

/-- C8 counterexample: `normalize` applied to the zero vector does not fail;
it silently returns a degenerate vector (the zero vector in the exact-real
model, whose length is 0, not 1). -/
theorem normalize_zero_counterexample :
    normalize (MakeVector 0 0 0) = MakeVector 0 0 0 ∧
    norm (normalize (MakeVector 0 0 0)) = 0 := by
  have h : normalize (MakeVector 0 0 0) = MakeVector 0 0 0 := by
    simp [normalize, MakeVector, zero_div]
  refine ⟨h, ?_⟩
  rw [h]
  simp [norm, dot, MakeVector, Real.sqrt_zero]

/-- C8 (amended): `normalize` of a zero-length vector does not fail loudly:
it performs the componentwise division by the zero length anyway and
silently returns a degenerate vector (NaN components under Go's IEEE
float semantics; the zero vector in the exact-real model). -/
theorem normalize_zero_silent (a : Vector) (h : norm a = 0) :
    normalize a = MakeVector 0 0 0 := by
  simp only [normalize, h, div_zero]

/-- Witness for the amended C8 at the zero vector. -/
theorem normalize_zero_silent_witness :
    norm (MakeVector 0 0 0) = 0 ∧ normalize (MakeVector 0 0 0) = MakeVector 0 0 0 := by
  have hz : norm (MakeVector 0 0 0) = 0 := by
    simp [norm, dot, MakeVector, Real.sqrt_zero]
  exact ⟨hz, normalize_zero_silent (MakeVector 0 0 0) hz⟩

/-- C1: when `TraceRay` hits a sphere whose reflectivity is at most 0, or
when the recursion depth is at most 0, it returns exactly the local shading
color (`WeightColor` of the sphere's base color by the `Lighting`
intensity), with no recursive reflection contribution.  In particular a
sphere with `reflective = 0` yields the local-shading-only color at any
depth > 0, and depth = 0 never recurses even for `reflective = 1`. -/
theorem traceRay_base_local (spheres : List Sphere) (lights : List Light)
    (origin direction : Vector) (t_min t_max : EReal) (recursion_depth : ℤ)
    (s : Sphere) (t : ℝ)
    (hhit : ClosestIntersection spheres origin direction t_min t_max =
      (some s, ((t : ℝ) : EReal)))
    (hbase : s.reflective ≤ 0 ∨ recursion_depth ≤ 0) :
    TraceRay spheres lights origin direction t_min t_max recursion_depth =
      localColor spheres lights origin direction s t := by
  rw [TraceRay.eq_def, hhit]
  dsimp only
  rw [dif_pos hbase.symm, EReal.toReal_coe]

/-- Witness for C1: on the demo scene with a non-reflective sphere and
depth 3, the traced color is the local shading color. -/
theorem traceRay_base_local_witness :
    (ClosestIntersection [demoSphere 0] demoO demoD ((1 : ℝ) : EReal) ⊤ =
        (some (demoSphere 0), ((2 : ℝ) : EReal)) ∧
      ((demoSphere 0).reflective ≤ 0 ∨ (3 : ℤ) ≤ 0)) ∧
    TraceRay [demoSphere 0] [] demoO demoD ((1 : ℝ) : EReal) ⊤ 3 =
      localColor [demoSphere 0] [] demoO demoD (demoSphere 0) 2 :=
  ⟨⟨demo_CI 0, Or.inl (by norm_num [demoSphere, MakeSphere])⟩,
    traceRay_base_local [demoSphere 0] [] demoO demoD ((1 : ℝ) : EReal) ⊤ 3
      (demoSphere 0) 2 (demo_CI 0) (Or.inl (by norm_num [demoSphere, MakeSphere]))⟩

/-- C2: when `TraceRay` hits a sphere with reflectivity r > 0 at depth > 0,
it recurses at the hit point along the reflected direction with bounds
`[0.001, +inf)` and depth - 1, and returns
`AddColors (WeightColor local (1-r)) (WeightColor reflected r)`. -/
theorem traceRay_reflective_blend (spheres : List Sphere) (lights : List Light)
    (origin direction : Vector) (t_min t_max : EReal) (recursion_depth : ℤ)
    (s : Sphere) (t : ℝ)
    (hhit : ClosestIntersection spheres origin direction t_min t_max =
      (some s, ((t : ℝ) : EReal)))
    (hr : 0 < s.reflective) (hdepth : 0 < recursion_depth) :
    TraceRay spheres lights origin direction t_min t_max recursion_depth =
      AddColors
        (WeightColor (localColor spheres lights origin direction s t)
          (1 - s.reflective))
        (WeightColor
          (TraceRay spheres lights (hitPoint origin direction t)
            (ReflectRay (neg direction) (hitNormal origin direction s t))
            ((0.001 : ℝ) : EReal) ⊤ (recursion_depth - 1))
          s.reflective) := by
  rw [TraceRay.eq_def, hhit]
  dsimp only
  rw [dif_neg (not_or.mpr ⟨not_le.mpr hdepth, not_le.mpr hr⟩), EReal.toReal_coe]

/-- Witness for C2: on the demo scene with a fully reflective sphere and
depth 1, the traced color is the blend of local and recursively traced
colors. -/
theorem traceRay_reflective_blend_witness :
    (ClosestIntersection [demoSphere 1] demoO demoD ((1 : ℝ) : EReal) ⊤ =
        (some (demoSphere 1), ((2 : ℝ) : EReal)) ∧
      0 < (demoSphere 1).reflective ∧ (0 : ℤ) < 1) ∧
    TraceRay [demoSphere 1] [] demoO demoD ((1 : ℝ) : EReal) ⊤ 1 =
      AddColors
        (WeightColor (localColor [demoSphere 1] [] demoO demoD (demoSphere 1) 2)
          (1 - (demoSphere 1).reflective))
        (WeightColor
          (TraceRay [demoSphere 1] [] (hitPoint demoO demoD 2)
            (ReflectRay (neg demoD) (hitNormal demoO demoD (demoSphere 1) 2))
            ((0.001 : ℝ) : EReal) ⊤ (1 - 1))
          (demoSphere 1).reflective) :=
  ⟨⟨demo_CI 1, by norm_num [demoSphere, MakeSphere], by norm_num⟩,
    traceRay_reflective_blend [demoSphere 1] [] demoO demoD ((1 : ℝ) : EReal) ⊤ 1
      (demoSphere 1) 2 (demo_CI 1) (by norm_num [demoSphere, MakeSphere])
      (by norm_num)⟩

lemma foldl_add_map (f : Light → ℝ) (a : ℝ) (l : List Light) :
    l.foldl (fun acc x => acc + f x) a = a + (l.map f).sum := by
  induction l generalizing a with
  | nil => simp
  | cons x xs ih =>
    rw [List.foldl_cons, List.map_cons, List.sum_cons, ih, add_assoc]

/-- C5: `Lighting` is the sum of per-light contributions; an ambient light
contributes its intensity unconditionally; a point light is shadow-tested
with origin the shaded point, direction `light.position - point`
(unnormalized), `t_min = 0.001`, `t_max = 1`, and contributes nothing
(neither diffuse nor specular) when the test finds any sphere; a
directional light is shadow-tested with direction `light.direction` and
`t_max = +inf`, likewise contributing nothing when occluded. -/
theorem lighting_shadow_ambient (spheres : List Sphere) (lights : List Light)
    (point normal reflection : Vector) (specular : ℝ) (l : Light) :
    (Lighting spheres lights point normal reflection specular =
      (lights.map
        (lightContribution spheres point normal reflection specular)).sum) ∧
    (l.kind = "ambient" →
      lightContribution spheres point normal reflection specular l =
        l.intensity) ∧
    (l.kind = "point" → ∀ w : Sphere,
      (ClosestIntersection spheres point (sub l.position point)
          ((0.001 : ℝ) : EReal) ((1 : ℝ) : EReal)).1 = some w →
      lightContribution spheres point normal reflection specular l = 0) ∧
    (l.kind = "directional" → ∀ w : Sphere,
      (ClosestIntersection spheres point l.direction
          ((0.001 : ℝ) : EReal) ⊤).1 = some w →
      lightContribution spheres point normal reflection specular l = 0) := by
  refine ⟨?_, ?_, ?_, ?_⟩
  · unfold Lighting
    rw [foldl_add_map, zero_add]
  · intro h
    unfold lightContribution
    rw [if_pos h]
  · intro h w hw
    unfold lightContribution
    rw [if_neg (show ¬l.kind = "ambient" by rw [h]; decide)]
    rw [if_pos h, if_pos h]
    have hpair : ClosestIntersection spheres point (sub l.position point)
        ((0.001 : ℝ) : EReal) ((1 : ℝ) : EReal) =
        (some w, (ClosestIntersection spheres point (sub l.position point)
          ((0.001 : ℝ) : EReal) ((1 : ℝ) : EReal)).2) := by
      rw [← hw]
    dsimp only
    rw [hpair]
  · intro h w hw
    unfold lightContribution
    rw [if_neg (show ¬l.kind = "ambient" by rw [h]; decide)]
    rw [if_neg (show ¬l.kind = "point" by rw [h]; decide),
      if_neg (show ¬l.kind = "point" by rw [h]; decide)]
    have hpair : ClosestIntersection spheres point l.direction
        ((0.001 : ℝ) : EReal) ⊤ =
        (some w, (ClosestIntersection spheres point l.direction
          ((0.001 : ℝ) : EReal) ⊤).2) := by
      rw [← hw]
    dsimp only
    rw [hpair]

/-- Witness for C5, applied to a one-light scene. -/
theorem lighting_shadow_ambient_witness :
    Lighting [] [MakeLight "ambient" 1 demoO demoO] demoO demoD demoD 500 =
      (([MakeLight "ambient" 1 demoO demoO]).map
        (lightContribution [] demoO demoD demoD 500)).sum ∧
    lightContribution [] demoO demoD demoD 500 (MakeLight "ambient" 1 demoO demoO) =
      (MakeLight "ambient" 1 demoO demoO).intensity :=
  ⟨(lighting_shadow_ambient [] [MakeLight "ambient" 1 demoO demoO] demoO demoD demoD
      500 (MakeLight "ambient" 1 demoO demoO)).1,
    (lighting_shadow_ambient [] [MakeLight "ambient" 1 demoO demoO] demoO demoD demoD
      500 (MakeLight "ambient" 1 demoO demoO)).2.1 rfl⟩

/-- C3: `ClosestIntersection` returns the sphere whose quadratic root is the
smallest root `c` with `t_min <= c` and `c < t_max` (a root equal to
`t_max` is never selected, since the running best starts at `t_max`),
together with that root; on exact ties the sphere encountered first in
scene order wins (every sphere listed before the winner has all its valid
roots strictly greater); if no sphere has a root in range it returns
`(none, t_max)`. -/
theorem closestIntersection_min_first (spheres : List Sphere)
    (origin direction : Vector) (t_min t_max : EReal) :
    ((∀ s ∈ spheres, ∀ c : EReal, isRootOf origin direction c s →
        ¬(t_min ≤ c ∧ c < t_max)) →
      ClosestIntersection spheres origin direction t_min t_max = (none, t_max)) ∧
    (∀ s ∈ spheres, ∀ c : EReal, isRootOf origin direction c s →
      t_min ≤ c → c < t_max →
      (ClosestIntersection spheres origin direction t_min t_max).2 ≤ c) ∧
    ((ClosestIntersection spheres origin direction t_min t_max).1 = none →
      (ClosestIntersection spheres origin direction t_min t_max).2 = t_max ∧
      ∀ s ∈ spheres, ∀ c : EReal, isRootOf origin direction c s →
        ¬(t_min ≤ c ∧ c < t_max)) ∧
    (∀ w : Sphere,
      (ClosestIntersection spheres origin direction t_min t_max).1 = some w →
      ∃ l1 l2, spheres = l1 ++ w :: l2 ∧
        isRootOf origin direction
          (ClosestIntersection spheres origin direction t_min t_max).2 w ∧
        t_min ≤ (ClosestIntersection spheres origin direction t_min t_max).2 ∧
        (ClosestIntersection spheres origin direction t_min t_max).2 < t_max ∧
        ∀ u ∈ l1, ∀ c : EReal, isRootOf origin direction c u →
          t_min ≤ c → c < t_max →
          (ClosestIntersection spheres origin direction t_min t_max).2 < c) := by
  obtain ⟨h1, h2, h3⟩ :=
    closest_foldl_inv origin direction t_min t_max spheres none t_max
  refine ⟨?_, ?_, ?_, ?_⟩
  · intro hno
    rcases h3 with ⟨hres, _⟩ | ⟨l1, w, l2, hsplit, hfst, hroot, ha, hb, hc, _⟩
    · exact hres
    · have hw : w ∈ spheres := by
        rw [hsplit]
        exact List.mem_append.mpr (Or.inr (List.mem_cons_self w l2))
      exact absurd ⟨ha, hc⟩ (hno w hw _ hroot)
  · intro s hs c hroot hcmin hclt
    exact h2 s hs c hroot hcmin (le_of_lt hclt) hclt
  · intro hnone
    rcases h3 with ⟨hres, hno⟩ | ⟨l1, w, l2, hsplit, hfst, hroot, ha, hb, hc, htie⟩
    · have hres' : ClosestIntersection spheres origin direction t_min t_max =
          (none, t_max) := hres
      refine ⟨by rw [hres'], ?_⟩
      intro s hs c hroot hval
      exact hno s hs c hroot ⟨hval.1, le_of_lt hval.2, hval.2⟩
    · have hfst' : (ClosestIntersection spheres origin direction t_min t_max).1 =
          some w := hfst
      rw [hnone] at hfst'
      simp at hfst'
  · intro w hw
    rcases h3 with ⟨hres, _⟩ | ⟨l1, w', l2, hsplit, hfst, hroot, ha, hb, hc, htie⟩
    · have hres' : ClosestIntersection spheres origin direction t_min t_max =
          (none, t_max) := hres
      rw [hres'] at hw
      simp at hw
    · have hfst' : (ClosestIntersection spheres origin direction t_min t_max).1 =
          some w' := hfst
      have hww : w' = w := Option.some.inj (hfst'.symm.trans hw)
      subst hww
      refine ⟨l1, l2, hsplit, hroot, ha, hc, ?_⟩
      intro u hu c hroot2 hcmin hclt
      exact htie u hu c hroot2 hcmin (le_of_lt hclt) hclt

/-- Witness for C3 on the one-sphere demo scene: the demo sphere is
returned, it is first in scene order, and the returned distance is one of
its roots, within range. -/
theorem closestIntersection_min_first_witness :
    (ClosestIntersection [demoSphere 0] demoO demoD ((1 : ℝ) : EReal) ⊤).1 =
      some (demoSphere 0) ∧
    ∃ l1 l2, [demoSphere 0] = l1 ++ demoSphere 0 :: l2 ∧
      isRootOf demoO demoD
        (ClosestIntersection [demoSphere 0] demoO demoD ((1 : ℝ) : EReal) ⊤).2
        (demoSphere 0) ∧
      ((1 : ℝ) : EReal) ≤
        (ClosestIntersection [demoSphere 0] demoO demoD ((1 : ℝ) : EReal) ⊤).2 ∧
      (ClosestIntersection [demoSphere 0] demoO demoD ((1 : ℝ) : EReal) ⊤).2 < ⊤ ∧
      ∀ u ∈ l1, ∀ c : EReal, isRootOf demoO demoD c u →
        ((1 : ℝ) : EReal) ≤ c → c < ⊤ →
        (ClosestIntersection [demoSphere 0] demoO demoD ((1 : ℝ) : EReal) ⊤).2 < c := by
  have hfst : (ClosestIntersection [demoSphere 0] demoO demoD ((1 : ℝ) : EReal) ⊤).1 =
      some (demoSphere 0) := by rw [demo_CI 0]
  exact ⟨hfst,
    (closestIntersection_min_first [demoSphere 0] demoO demoD ((1 : ℝ) : EReal)
        ⊤).2.2.2 (demoSphere 0) hfst⟩

/-- C6: when `ClosestIntersection` finds no sphere in the valid range,
`TraceRay` returns exactly the background color black (0, 0, 0). -/
theorem traceRay_miss_background (spheres : List Sphere) (lights : List Light)
    (origin direction : Vector) (t_min t_max : EReal) (recursion_depth : ℤ)
    (hmiss : (ClosestIntersection spheres origin direction t_min t_max).1 = none) :
    TraceRay spheres lights origin direction t_min t_max recursion_depth =
      MakeColor 0 0 0 := by
  rw [TraceRay.eq_def]
  have h2 : ClosestIntersection spheres origin direction t_min t_max =
      (none, (ClosestIntersection spheres origin direction t_min t_max).2) := by
    rw [← hmiss]
  rw [h2]

/-- Witness for C6: the empty scene has no intersection, and the traced
color is black. -/
theorem traceRay_miss_background_witness :
    (ClosestIntersection [] demoO demoD ((1 : ℝ) : EReal) ⊤).1 = none ∧
    TraceRay [] [] demoO demoD ((1 : ℝ) : EReal) ⊤ 3 = MakeColor 0 0 0 :=
  ⟨rfl, traceRay_miss_background [] [] demoO demoD ((1 : ℝ) : EReal) ⊤ 3 rfl⟩

end Raytracer
